import Mathlib

/-!
# purple-exporter: a verification development of `main.go`

The program polls a fixed list of PurpleAir sensors over HTTP and republishes
selected fields of each JSON status document as Prometheus gauges.

The development embeds

* the payload type `PurpleAirData` and the seven gauge vectors of `main.go`,
* the body of the goroutine started by `fetchStats` for each address
  (`fetch` for lines 120-133, `writes` for lines 135-142),
* `fetchStats` itself as an interleaving semantics: a cycle state holds one
  goroutine per address and a schedule (the order in which the Go runtime
  lets the goroutines make their steps) drives it,
* `run` as a transition system over the main goroutine, the listener
  goroutine, the scheduler goroutine and the fetch goroutines.

The libraries the program calls are outside the repository and enter as
follows.  A gauge vector is a mapping from label values to a current value
and `Set` overwrites the value (`Registry.Set`).  The network and the JSON
decoder are a parameter (`World`): what `http.Get` returns for a URL, what
`ioutil.ReadAll` returns for the body, what `json.Unmarshal` returns for the
bytes read.
-/

set_option maxRecDepth 100000

namespace PurpleExporter

/-! ## Data model -/

/-- A Go `float64`, kept as its IEEE-754 binary64 bit pattern.  The program
never computes with the readings: it decodes them and hands them to
`Gauge.Set`, which stores `math.Float64bits(val)`. -/
abbrev Float64 := Nat

/-- The constant `1` of `Set(1)`, i.e. the bits of `1.0`. -/
def one : Float64 := 0x3FF0000000000000

/-- The struct `PurpleAirData` of `main.go`, lines 79-89. -/
structure PurpleAirData where
  SensorId : String
  Place : String
  Version : String
  Temperature : Float64
  Humidity : Float64
  Dewpoint : Float64
  Pressure : Float64
  Pm25AqiA : Float64
  Pm25AqiB : Float64
  deriving DecidableEq, Repr

/-- A `prometheus.GaugeVec`: the metric name and the names of its labels. -/
structure GaugeVec where
  Name : String
  Labels : List String
  deriving DecidableEq, Repr

/-- The gauge vector `pm25aqi`, lines 23-32. -/
def pm25aqi : GaugeVec := ⟨"pm2_5_aqi", ["host", "channel"]⟩
/-- The gauge vector `sensorId`, lines 33-42. -/
def sensorId : GaugeVec := ⟨"sensor_id", ["host", "sensor_id"]⟩
/-- The gauge vector `version`, lines 43-52. -/
def version : GaugeVec := ⟨"version", ["host", "version"]⟩
/-- The gauge vector `temp`, lines 53-58. -/
def temp : GaugeVec := ⟨"temp_f", ["host"]⟩
/-- The gauge vector `humidity`, lines 59-64. -/
def humidity : GaugeVec := ⟨"humidity", ["host"]⟩
/-- The gauge vector `dewpoint`, lines 65-70. -/
def dewpoint : GaugeVec := ⟨"dewpoint", ["host"]⟩
/-- The gauge vector `pressure`, lines 71-76. -/
def pressure : GaugeVec := ⟨"pressure", ["host"]⟩

/-- A registry key: a metric name with the values of its labels, in the order
of the label names. -/
structure Key where
  name : String
  labels : List String
  deriving DecidableEq, Repr

/-- The key that `vec.WithLabelValues(lvs...)` addresses. -/
def GaugeVec.WithLabelValues (g : GaugeVec) (lvs : List String) : Key :=
  ⟨g.Name, lvs⟩

/-- The registry: the current value of every gauge that exists, `none` for a
key no gauge was created for. -/
abbrev Registry := Key → Option Float64

/-- `Gauge.Set`: the gauge of the key is created if it is absent and its value
is overwritten. -/
def Registry.Set (R : Registry) (k : Key) (v : Float64) : Registry :=
  fun k' => if k' = k then some v else R k'

/-- The registry of a process that has written nothing yet. -/
def Registry.empty : Registry := fun _ => none

/-- The eight `Set` calls of lines 135-142 for a decoded payload, in source
order, each as the key it addresses and the value it stores. -/
def writes (data : PurpleAirData) : List (Key × Float64) :=
  [ (sensorId.WithLabelValues [data.SensorId, data.SensorId], one),
    (version.WithLabelValues [data.SensorId, data.Version], one),
    (temp.WithLabelValues [data.SensorId], data.Temperature),
    (humidity.WithLabelValues [data.SensorId], data.Humidity),
    (dewpoint.WithLabelValues [data.SensorId], data.Dewpoint),
    (pressure.WithLabelValues [data.SensorId], data.Pressure),
    (pm25aqi.WithLabelValues [data.SensorId, "a"], data.Pm25AqiA),
    (pm25aqi.WithLabelValues [data.SensorId, "b"], data.Pm25AqiB) ]

/-- The registry keys the goroutine of a decoded payload writes. -/
def keysOf (data : PurpleAirData) : List Key := (writes data).map Prod.fst

/-! ## The network and the decoder -/

/-- What the program uses of an `http.Response`: the status code (which
`main.go` never reads) and what `ioutil.ReadAll(resp.Body)` returns. -/
structure Response where
  StatusCode : Nat
  Body : Except String String

/-- The environment of a scrape cycle: what `http.Get` returns for a URL and
what `json.Unmarshal` into a fresh `PurpleAirData` returns for a body.
`http.Get` reports an error for a transport failure only; a response with any
status code is a response. -/
structure World where
  Get : String → Except String Response
  Unmarshal : String → Except String PurpleAirData

/-- Lines 120-133 of the goroutine: get `http://<addr>/json`, read the body,
decode it.  An `error` is an `err != nil` of one of the three calls, each of
which is followed by `log.Fatal(err)`. -/
def fetch (w : World) (addr : String) : Except String PurpleAirData :=
  match w.Get ("http://" ++ addr ++ "/json") with
  | .error err => .error err
  | .ok resp =>
    match resp.Body with
    | .error err => .error err
    | .ok body => w.Unmarshal body

/-! ## One scrape cycle: `fetchStats` -/

/-- Where the goroutine of one address stands: before its fetch, inside the
`Set` calls with the ones still to make, or past `wg.Done()`. -/
inductive Goroutine where
  | fetching (addr : String)
  | setting (pending : List (Key × Float64))
  | finished
  deriving DecidableEq, Repr

/-- The state of one call of `fetchStats`: the registry, the goroutines
spawned by the loop of lines 116-144, the counter of the local `WaitGroup`,
and the exit status once `log.Fatal` has terminated the process. -/
structure Cycle where
  registry : Registry
  goroutines : List Goroutine
  wg : Nat
  exit : Option Nat

/-- The state after the loop of lines 116-144 has spawned one goroutine per
address, with `wg.Add(1)` for each. -/
def Cycle.start (R : Registry) (addrs : List String) : Cycle :=
  ⟨R, addrs.map Goroutine.fetching, addrs.length, none⟩

/-- One step of goroutine `i`.  A terminated process makes no step.  The fetch
either fails, and `log.Fatal` exits with status 1, or yields the payload whose
`Set` calls follow; a `Set` call overwrites one key; after the last one the
deferred `wg.Done()` runs. -/
def Cycle.step (w : World) (c : Cycle) (i : Nat) : Cycle :=
  match c.exit with
  | some _ => c
  | none =>
    match c.goroutines[i]? with
    | none => c
    | some (.fetching addr) =>
      match fetch w addr with
      | .error _ => { c with exit := some 1 }
      | .ok data => { c with goroutines := c.goroutines.set i (.setting (writes data)) }
    | some (.setting ((k, v) :: rest)) =>
      { c with registry := c.registry.Set k v,
               goroutines := c.goroutines.set i (.setting rest) }
    | some (.setting []) =>
      { c with goroutines := c.goroutines.set i .finished, wg := c.wg - 1 }
    | some .finished => c

/-- The cycle state after the goroutines have made the steps of a schedule. -/
def Cycle.exec (w : World) (c : Cycle) (sched : List Nat) : Cycle :=
  sched.foldl (Cycle.step w) c

/-- How a call of `fetchStats` stands after a schedule: it has returned `nil`
(`wg.Wait()` saw the counter at zero), the process was terminated by
`log.Fatal`, or `wg.Wait()` is still blocked.  Each carries the registry. -/
inductive Outcome where
  | returned (R : Registry)
  | fatal (code : Nat) (R : Registry)
  | waiting (R : Registry)

/-- How the call stands in a cycle state: terminated if `log.Fatal` ran,
returned if the counter of the `WaitGroup` is zero, blocked in `wg.Wait()`
otherwise. -/
def Cycle.outcome (c : Cycle) : Outcome :=
  match c.exit with
  | some code => .fatal code c.registry
  | none => if c.wg = 0 then .returned c.registry else .waiting c.registry

/-- The function `fetchStats`, lines 113-147, under a schedule of its
goroutines. -/
def fetchStats (w : World) (addrs : List String) (sched : List Nat) (R : Registry) : Outcome :=
  ((Cycle.start R addrs).exec w sched).outcome

/-- Whether the call has returned. -/
def Outcome.isReturned : Outcome → Bool
  | .returned _ => true
  | _ => false

/-- The exit status of the process, if `log.Fatal` terminated it. -/
def Outcome.exitCode : Outcome → Option Nat
  | .fatal code _ => some code
  | _ => none

/-- The registry an outcome carries. -/
def Outcome.registry : Outcome → Registry
  | .returned R => R
  | .fatal _ R => R
  | .waiting R => R

/-- The schedule that runs the goroutines of `n` addresses one after the
other, each for its ten steps (fetch, eight `Set` calls, `wg.Done()`). -/
def seqSchedule (n : Nat) : List Nat :=
  (List.range n).flatMap fun i => List.replicate 10 i

/-! ## The invariant of a cycle -/

/-- A key and value that some goroutine of the cycle writes: the address is in
the list, its fetch succeeds, and the pair is one of the payload's writes. -/
def Written (w : World) (addrs : List String) (k : Key) (v : Float64) : Prop :=
  ∃ addr ∈ addrs, ∃ P, fetch w addr = .ok P ∧ (k, v) ∈ writes P

/-- What holds of every state of a cycle on `addrs` that started from `R`. -/
structure Cycle.Inv (w : World) (addrs : List String) (R : Registry) (c : Cycle) : Prop where
  len : c.goroutines.length = addrs.length
  fetching : ∀ (i : Nat) (addr : String), c.goroutines[i]? = some (Goroutine.fetching addr) → addrs[i]? = some addr
  setting : ∀ (i : Nat) (ws : List (Key × Float64)), c.goroutines[i]? = some (Goroutine.setting ws) →
    ∃ addr P, addrs[i]? = some addr ∧ fetch w addr = .ok P ∧ (∀ kv ∈ ws, kv ∈ writes P) ∧
      ∀ kv ∈ writes P, kv ∈ ws ∨ ∃ v, c.registry kv.1 = some v ∧ Written w addrs kv.1 v
  finished : ∀ (i : Nat), c.goroutines[i]? = some Goroutine.finished →
    ∃ addr P, addrs[i]? = some addr ∧ fetch w addr = .ok P ∧
      ∀ kv ∈ writes P, ∃ v, c.registry kv.1 = some v ∧ Written w addrs kv.1 v
  frame : ∀ k, c.registry k = R k ∨ ∃ v, c.registry k = some v ∧ Written w addrs k v
  count : c.wg = c.goroutines.countP (fun g => g != Goroutine.finished)

/-! ## Sample data: the end-to-end scenario -/

/-- The payload of the sensor at `10.0.0.5:80`: SensorId `abc123`, version
`7.0`, 72.5 F, humidity 41.0, dewpoint 48.2, pressure 1013.2, AQI 12.0 and
11.5 (each reading as the bits of its `float64`). -/
def samplePayload : PurpleAirData :=
  { SensorId := "abc123", Place := "", Version := "7.0",
    Temperature := 0x4052200000000000,
    Humidity := 0x4044800000000000,
    Dewpoint := 0x404819999999999A,
    Pressure := 0x408FA9999999999A,
    Pm25AqiA := 0x4028000000000000,
    Pm25AqiB := 0x4027000000000000 }

/-- The body the sensor at `10.0.0.5:80` returns. -/
def sampleBody : String :=
  "\x7b\"SensorId\":\"abc123\",\"version\":\"7.0\",\"current_temp_f\":72.5,\"current_humidity\":41.0,\"current_dewpoint_f\":48.2,\"pressure\":1013.2,\"pm2.5_aqi\":12.0,\"pm2.5_aqi_b\":11.5\x7d"

/-- The decoder on the documents of the scenarios: `sampleBody` decodes to
`samplePayload`, any other body is reported as malformed. -/
def sampleUnmarshal (body : String) : Except String PurpleAirData :=
  if body = sampleBody then .ok samplePayload
  else .error "invalid character"

/-- A network with one sensor, at `10.0.0.5:80`, which answers 200 with
`sampleBody`; any other URL refuses the connection. -/
def sampleWorld : World :=
  { Get := fun url =>
      if url = "http://10.0.0.5:80/json" then .ok ⟨200, .ok sampleBody⟩
      else .error "connection refused",
    Unmarshal := sampleUnmarshal }

/-- The registry after the eight `Set` calls of lines 135-142 for a payload,
made in source order with no other write in between. -/
def publish (R : Registry) (data : PurpleAirData) : Registry :=
  (writes data).foldl (fun R kv => R.Set kv.1 kv.2) R

/-- The registry holds the eight mapped fields of a payload under the label
host = SensorId: the two markers with value 1 and the six readings. -/
def Registry.Reflects (R : Registry) (P : PurpleAirData) : Prop :=
  R (sensorId.WithLabelValues [P.SensorId, P.SensorId]) = some one ∧
  R (version.WithLabelValues [P.SensorId, P.Version]) = some one ∧
  R (temp.WithLabelValues [P.SensorId]) = some P.Temperature ∧
  R (humidity.WithLabelValues [P.SensorId]) = some P.Humidity ∧
  R (dewpoint.WithLabelValues [P.SensorId]) = some P.Dewpoint ∧
  R (pressure.WithLabelValues [P.SensorId]) = some P.Pressure ∧
  R (pm25aqi.WithLabelValues [P.SensorId, "a"]) = some P.Pm25AqiA ∧
  R (pm25aqi.WithLabelValues [P.SensorId, "b"]) = some P.Pm25AqiB

/-- Two payloads carry the same six readings. -/
def SameReadings (P Q : PurpleAirData) : Prop :=
  P.Temperature = Q.Temperature ∧ P.Humidity = Q.Humidity ∧ P.Dewpoint = Q.Dewpoint ∧
  P.Pressure = Q.Pressure ∧ P.Pm25AqiA = Q.Pm25AqiA ∧ P.Pm25AqiB = Q.Pm25AqiB

/-- The network with every status code replaced: `f url code` stands where the
response for `url` carried `code`.  Bodies and transport errors are kept. -/
def World.withStatus (w : World) (f : String → Nat → Nat) : World :=
  { w with Get := fun url =>
      match w.Get url with
      | .error err => .error err
      | .ok resp => .ok { resp with StatusCode := f url resp.StatusCode } }

/-- A network whose sensor at `10.0.0.5:80` answers 500 Internal Server Error
with `sampleBody` as the body; any other URL refuses the connection. -/
def errorWorld : World :=
  { Get := fun url =>
      if url = "http://10.0.0.5:80/json" then .ok ⟨500, .ok sampleBody⟩
      else .error "connection refused",
    Unmarshal := sampleUnmarshal }

/-- The body of the first of two sensors that report the same SensorId. -/
def twinBodyA : String :=
  "\x7b\"SensorId\":\"abc123\",\"version\":\"7.0\",\"current_temp_f\":72.5\x7d"

/-- The body of the second of two sensors that report the same SensorId. -/
def twinBodyB : String :=
  "\x7b\"SensorId\":\"abc123\",\"version\":\"7.0\",\"current_temp_f\":70.0\x7d"

/-- The payload `twinBodyA` decodes to: 72.5 F, absent fields zero. -/
def twinPayloadA : PurpleAirData :=
  { SensorId := "abc123", Place := "", Version := "7.0",
    Temperature := 0x4052200000000000,
    Humidity := 0, Dewpoint := 0, Pressure := 0, Pm25AqiA := 0, Pm25AqiB := 0 }

/-- The payload `twinBodyB` decodes to: 70.0 F, absent fields zero. -/
def twinPayloadB : PurpleAirData :=
  { SensorId := "abc123", Place := "", Version := "7.0",
    Temperature := 0x4051800000000000,
    Humidity := 0, Dewpoint := 0, Pressure := 0, Pm25AqiA := 0, Pm25AqiB := 0 }

/-- A network with two sensors, at `10.0.0.5:80` and `10.0.0.6:80`, which both
report SensorId `abc123` and answer with `twinBodyA` and `twinBodyB`, the same
on every request. -/
def twinWorld : World :=
  { Get := fun url =>
      if url = "http://10.0.0.5:80/json" then .ok ⟨200, .ok twinBodyA⟩
      else if url = "http://10.0.0.6:80/json" then .ok ⟨200, .ok twinBodyB⟩
      else .error "connection refused",
    Unmarshal := fun body =>
      if body = twinBodyA then .ok twinPayloadA
      else if body = twinBodyB then .ok twinPayloadB
      else .error "invalid character" }

/-- The body of a second sensor, with a SensorId of its own. -/
def otherBody : String :=
  "\x7b\"SensorId\":\"def456\",\"version\":\"7.0\",\"current_temp_f\":70.0\x7d"

/-- The payload `otherBody` decodes to: SensorId `def456`, 70.0 F, absent
fields zero. -/
def otherPayload : PurpleAirData :=
  { SensorId := "def456", Place := "", Version := "7.0",
    Temperature := 0x4051800000000000,
    Humidity := 0, Dewpoint := 0, Pressure := 0, Pm25AqiA := 0, Pm25AqiB := 0 }

/-- A network with two sensors of different SensorIds: the one at `10.0.0.5:80`
answers with `sampleBody`, the one at `10.0.0.6:80` with `otherBody`. -/
def pairWorld : World :=
  { Get := fun url =>
      if url = "http://10.0.0.5:80/json" then .ok ⟨200, .ok sampleBody⟩
      else if url = "http://10.0.0.6:80/json" then .ok ⟨200, .ok otherBody⟩
      else .error "connection refused",
    Unmarshal := fun body =>
      if body = sampleBody then .ok samplePayload
      else if body = otherBody then .ok otherPayload
      else .error "invalid character" }

/-- The schedule on which two goroutines take turns, step by step. -/
def turnSchedule : List Nat :=
  (List.range 10).flatMap fun _ => [0, 1]

/-! ## The function `run` as a transition system -/

/-- What `run` returns: `nil`, or the exit error of line 154 with its message
and exit code. -/
inductive RunResult where
  | nil
  | exitError (message : String) (exitCode : Int)
  deriving DecidableEq, Repr

/-- Where the goroutine that executes `run` stands: at the address check of
line 153, before the `go` statement of the listener (lines 160-165), before
the `go` statement of the scheduler (lines 167-185), in `wg.Wait()` (line 187),
before `fmt.Println("Shutting down")` (line 189), or returned. -/
inductive MainPc where
  | check
  | spawnListener
  | spawnScheduler
  | wait
  | print
  | returned (result : RunResult)
  deriving DecidableEq, Repr

/-- Where the listener goroutine of lines 161-165 stands: not spawned, before
`http.Handle`, inside `http.ListenAndServe`, past `http.ListenAndServe` (which
only ever returns with an error, discarded by the code) and before `wg.Done()`,
or ended. -/
inductive ListenerPc where
  | absent
  | started
  | serving
  | failed
  | exited
  deriving DecidableEq, Repr

/-- Where the scheduler goroutine of lines 168-185 stands: not spawned, before
`time.NewTicker`, at the `select`, inside the call of `fetchStats`, at the test
`err != nil` with the error returned, or ended through the `ctx.Done()` case. -/
inductive SchedulerPc where
  | absent
  | started
  | selecting
  | inFetchStats
  | afterFetch (err : Option String)
  | exited
  deriving DecidableEq, Repr

/-- The state of the process while `run` executes.  `ctxDone` says whether the
context was cancelled, `wg` is the counter of the `WaitGroup` of line 158,
`ticker` is `none` before `time.NewTicker` and otherwise says whether
`interval.C` (a channel of capacity one) holds a tick, `cycle` holds the
registry, the goroutines of the latest call of `fetchStats` and the exit status
of the process.  `started` and `finished` count the calls of `fetchStats` and
the returns from it. -/
structure RunState where
  main : MainPc
  listener : ListenerPc
  scheduler : SchedulerPc
  ctxDone : Bool
  wg : Nat
  ticker : Option Bool
  cycle : Cycle
  stdout : List String
  started : Nat
  finished : Nat

/-- The state in which `run` is entered. -/
def RunState.init : RunState :=
  { main := .check, listener := .absent, scheduler := .absent, ctxDone := false, wg := 0,
    ticker := none, cycle := ⟨Registry.empty, [], 0, none⟩, stdout := [],
    started := 0, finished := 0 }

/-- What can happen next: the main goroutine, the listener goroutine or the
scheduler goroutine makes its next step (at the `select` the scheduler takes
the `ctx.Done()` case when `stop` is set and the tick case otherwise, each only
if it is ready), `http.ListenAndServe` returns, the runtime delivers a tick, or
the fetch goroutine with the given index makes a step. -/
inductive Action where
  | main
  | listener
  | listenFail
  | scheduler (stop : Bool)
  | tick
  | worker (i : Nat)
  deriving DecidableEq, Repr

/-- The process has ended: `log.Fatal` ran, or `run` has returned. -/
def RunState.terminated (s : RunState) : Bool :=
  s.cycle.exit.isSome || match s.main with
    | .returned _ => true
    | _ => false

/-- The step of the main goroutine, lines 153-191. -/
def stepMain (addrs : List String) (s : RunState) : RunState :=
  match s.main with
  | .check =>
    if addrs.length = 0 then
      { s with main := .returned (.exitError "At least one sensor address is required" (-1)) }
    else { s with main := .spawnListener }
  | .spawnListener => { s with wg := s.wg + 1, listener := .started, main := .spawnScheduler }
  | .spawnScheduler => { s with wg := s.wg + 1, scheduler := .started, main := .wait }
  | .wait => if s.wg = 0 then { s with main := .print } else s
  | .print => { s with stdout := s.stdout ++ ["Shutting down"], main := .returned .nil }
  | .returned _ => s

/-- The step of the listener goroutine, lines 162-164: `http.Handle`, then
`http.ListenAndServe`, whose return is an event of its own, then `wg.Done()`. -/
def stepListener (s : RunState) : RunState :=
  match s.listener with
  | .started => { s with listener := .serving }
  | .failed => { s with wg := s.wg - 1, listener := .exited }
  | _ => s

/-- The step of the scheduler goroutine, lines 169-184. -/
def stepScheduler (addrs : List String) (stop : Bool) (s : RunState) : RunState :=
  match s.scheduler with
  | .started => { s with ticker := some false, scheduler := .selecting }
  | .selecting =>
    if stop then
      if s.ctxDone then { s with ctxDone := true, wg := s.wg - 1, scheduler := .exited }
      else s
    else if s.ticker = some true then
      { s with ticker := some false, scheduler := .inFetchStats,
               cycle := Cycle.start s.cycle.registry addrs,
               started := s.started + 1 }
    else s
  | .inFetchStats =>
    if s.cycle.wg = 0 then { s with scheduler := .afterFetch none, finished := s.finished + 1 }
    else s
  | .afterFetch none => { s with scheduler := .selecting }
  | .afterFetch (some err) => { s with stdout := s.stdout ++ [err], scheduler := .selecting }
  | _ => s

/-- One step of the process.  A process that has ended makes no step. -/
def RunState.step (w : World) (addrs : List String) (s : RunState) (a : Action) : RunState :=
  if s.terminated then s
  else
    match a with
    | .main => stepMain addrs s
    | .listener => stepListener s
    | .listenFail =>
      match s.listener with
      | .serving => { s with listener := .failed }
      | _ => s
    | .scheduler stop => stepScheduler addrs stop s
    | .tick =>
      match s.ticker with
      | some _ => { s with ticker := some true }
      | none => s
    | .worker i => { s with cycle := s.cycle.step w i }

/-- The function `run`, lines 149-192, for the sensor addresses of the command
line: the state of the process after a sequence of events.  The listen address
only reaches `http.ListenAndServe`, whose outcome is the event `listenFail`. -/
def run (w : World) (addrs : List String) (acts : List Action) : RunState :=
  acts.foldl (RunState.step w addrs) RunState.init
/-- What holds of every state of the process that `run` reaches. -/
structure RunState.Inv (addrs : List String) (s : RunState) : Prop where
  ctx : s.ctxDone = false
  sched : s.scheduler ≠ SchedulerPc.exited
  err : ∀ e, s.scheduler = SchedulerPc.afterFetch e → e = none
  out : s.stdout = []
  noPrint : s.main ≠ MainPc.print
  ret : ∀ r, s.main = MainPc.returned r →
    addrs = [] ∧ r = RunResult.exitError "At least one sensor address is required" (-1)
  wgEq : s.wg = (if s.listener = ListenerPc.started ∨ s.listener = ListenerPc.serving ∨
      s.listener = ListenerPc.failed then 1 else 0) +
      (if s.scheduler = SchedulerPc.absent then 0 else 1)
  early : (s.main = MainPc.check ∨ s.main = MainPc.spawnListener ∨ ∃ r, s.main = MainPc.returned r) →
    s.listener = ListenerPc.absent ∧ s.scheduler = SchedulerPc.absent
  mid : s.main = MainPc.spawnScheduler →
    s.listener ≠ ListenerPc.absent ∧ s.scheduler = SchedulerPc.absent
  late : s.main = MainPc.wait → s.listener ≠ ListenerPc.absent ∧ s.scheduler ≠ SchedulerPc.absent
  idle : s.scheduler = SchedulerPc.absent →
    s.ticker = none ∧ s.started = 0 ∧ s.finished = 0 ∧ s.cycle.goroutines = []
  inFlight : s.scheduler = SchedulerPc.inFetchStats → s.started = s.finished + 1
  between : s.scheduler ≠ SchedulerPc.inFetchStats →
    s.started = s.finished ∧ ∀ g ∈ s.cycle.goroutines, g = Goroutine.finished
  count : s.cycle.wg = s.cycle.goroutines.countP (fun g => g != Goroutine.finished)

/-- The exit error of line 154. -/
def noAddrError : RunResult :=
  .exitError "At least one sensor address is required" (-1)

/-- A run in which the listener fails to bind: `run` passes the address check
and spawns both goroutines, `http.ListenAndServe` returns its error, the
listener goroutine ends, and then a tick arrives and the scheduler runs one
full scrape cycle of the sensor at `10.0.0.5:80`. -/
def listenerFailsTrace : List Action :=
  [.main, .main, .main, .listener, .listenFail, .listener, .main, .scheduler false, .tick,
   .scheduler false] ++ List.replicate 10 (.worker 0) ++ [.scheduler false]

/-! # Theorems -/

/-! ## Steps of a cycle -/

theorem Cycle.step_of_exit {w : World} {c : Cycle} {e : Nat} (h : c.exit = some e) (i : Nat) :
    c.step w i = c := by
  simp [Cycle.step, h]

theorem Cycle.exec_nil (w : World) (c : Cycle) : c.exec w [] = c := rfl

theorem Cycle.exec_cons (w : World) (c : Cycle) (i : Nat) (s : List Nat) :
    c.exec w (i :: s) = (c.step w i).exec w s := rfl

theorem Cycle.exec_append (w : World) (c : Cycle) (s t : List Nat) :
    c.exec w (s ++ t) = (c.exec w s).exec w t := by
  simp [Cycle.exec]

theorem Cycle.exec_induction {w : World} (I : Cycle → Prop)
    (hstep : ∀ c i, I c → I (c.step w i)) :
    ∀ (sched : List Nat) (c : Cycle), I c → I (c.exec w sched) := by
  intro sched
  induction sched with
  | nil => intro c h; exact h
  | cons i s ih => intro c h; exact ih _ (hstep c i h)

theorem Cycle.inv_start (w : World) (addrs : List String) (R : Registry) :
    Cycle.Inv w addrs R (Cycle.start R addrs) := by
  refine ⟨by simp [Cycle.start], ?_, ?_, ?_, fun k => Or.inl rfl, ?_⟩
  · intro i addr h
    simp only [Cycle.start, List.getElem?_map] at h
    cases ha : addrs[i]? with
    | none => simp [ha] at h
    | some a => simp [ha] at h; simp [h]
  · intro i ws h
    simp only [Cycle.start, List.getElem?_map] at h
    cases ha : addrs[i]? <;> simp [ha] at h
  · intro i h
    simp only [Cycle.start, List.getElem?_map] at h
    cases ha : addrs[i]? <;> simp [ha] at h
  · simp only [Cycle.start]
    induction addrs with
    | nil => rfl
    | cons a t ih => simp [List.countP_cons, ← ih]

theorem Registry.Set_self (R : Registry) (k : Key) (v : Float64) : R.Set k v k = some v := by
  simp [Registry.Set]

theorem Registry.Set_ne (R : Registry) {k k' : Key} (v : Float64) (h : k' ≠ k) :
    R.Set k v k' = R k' := by
  simp [Registry.Set, h]

theorem Written.keep {w : World} {addrs : List String} {R : Registry} {k : Key} {v : Float64}
    (hw : Written w addrs k v) (k' : Key)
    (h : ∃ v0, R k' = some v0 ∧ Written w addrs k' v0) :
    ∃ v0, R.Set k v k' = some v0 ∧ Written w addrs k' v0 := by
  by_cases hk : k' = k
  · subst hk; exact ⟨v, Registry.Set_self _ _ _, hw⟩
  · rw [Registry.Set_ne _ _ hk]; exact h

theorem Cycle.step_none {w : World} {c : Cycle} {j : Nat} (he : c.exit = none)
    (hg : c.goroutines[j]? = none) : c.step w j = c := by
  simp [Cycle.step, he, hg]

theorem Cycle.step_finished {w : World} {c : Cycle} {j : Nat} (he : c.exit = none)
    (hg : c.goroutines[j]? = some Goroutine.finished) : c.step w j = c := by
  simp [Cycle.step, he, hg]

theorem Cycle.step_fetch_error {w : World} {c : Cycle} {j : Nat} {addr err : String}
    (he : c.exit = none) (hg : c.goroutines[j]? = some (Goroutine.fetching addr))
    (hf : fetch w addr = .error err) : c.step w j = { c with exit := some 1 } := by
  simp [Cycle.step, he, hg, hf]

theorem Cycle.step_fetch_ok {w : World} {c : Cycle} {j : Nat} {addr : String}
    {P : PurpleAirData}
    (he : c.exit = none) (hg : c.goroutines[j]? = some (Goroutine.fetching addr))
    (hf : fetch w addr = .ok P) :
    c.step w j = { c with goroutines := c.goroutines.set j (.setting (writes P)) } := by
  simp [Cycle.step, he, hg, hf]

theorem Cycle.step_set {w : World} {c : Cycle} {j : Nat} {k : Key} {v : Float64}
    {rest : List (Key × Float64)}
    (he : c.exit = none) (hg : c.goroutines[j]? = some (Goroutine.setting ((k, v) :: rest))) :
    c.step w j = { c with registry := c.registry.Set k v,
                          goroutines := c.goroutines.set j (.setting rest) } := by
  simp [Cycle.step, he, hg]

theorem Cycle.step_done {w : World} {c : Cycle} {j : Nat}
    (he : c.exit = none) (hg : c.goroutines[j]? = some (Goroutine.setting [])) :
    c.step w j = { c with goroutines := c.goroutines.set j .finished, wg := c.wg - 1 } := by
  simp [Cycle.step, he, hg]

theorem Cycle.inv_step {w : World} {addrs : List String} {R : Registry} {c : Cycle}
    (h : Cycle.Inv w addrs R c) (j : Nat) : Cycle.Inv w addrs R (c.step w j) := by
  cases he : c.exit with
  | some e => rw [Cycle.step_of_exit he]; exact h
  | none =>
  cases hg : c.goroutines[j]? with
  | none => rw [Cycle.step_none he hg]; exact h
  | some g =>
  obtain ⟨hj, hgj⟩ := List.getElem?_eq_some.mp hg
  cases g with
  | finished => rw [Cycle.step_finished he hg]; exact h
  | fetching addr =>
    cases hf : fetch w addr with
    | error err =>
      rw [Cycle.step_fetch_error he hg hf]
      exact ⟨h.len, h.fetching, h.setting, h.finished, h.frame, h.count⟩
    | ok P =>
      rw [Cycle.step_fetch_ok he hg hf]
      refine ⟨by simp [h.len], ?_, ?_, ?_, h.frame, ?_⟩
      · intro i a hi
        by_cases hij : j = i
        · subst hij; simp [List.getElem?_set_self hj] at hi
        · rw [List.getElem?_set_ne hij] at hi; exact h.fetching i a hi
      · intro i ws hi
        by_cases hij : j = i
        · subst hij
          simp [List.getElem?_set_self hj] at hi
          subst hi
          exact ⟨addr, P, h.fetching j addr hg, hf, fun _ hkv => hkv, fun _ hkv => Or.inl hkv⟩
        · rw [List.getElem?_set_ne hij] at hi; exact h.setting i ws hi
      · intro i hi
        by_cases hij : j = i
        · subst hij; simp [List.getElem?_set_self hj] at hi
        · rw [List.getElem?_set_ne hij] at hi; exact h.finished i hi
      · have h1 : 0 < c.goroutines.countP (fun g => g != Goroutine.finished) :=
          List.countP_pos_iff.mpr ⟨_, List.getElem_mem hj, by simp [hgj]⟩
        simp only [List.countP_set _ _ _ _ hj, hgj, h.count]
        simp
        omega
  | setting ws =>
    cases ws with
    | nil =>
      obtain ⟨addr, P, ha, hf, _, hcov⟩ := h.setting j [] hg
      rw [Cycle.step_done he hg]
      refine ⟨by simp [h.len], ?_, ?_, ?_, h.frame, ?_⟩
      · intro i a hi
        by_cases hij : j = i
        · subst hij; simp [List.getElem?_set_self hj] at hi
        · rw [List.getElem?_set_ne hij] at hi; exact h.fetching i a hi
      · intro i ws hi
        by_cases hij : j = i
        · subst hij; simp [List.getElem?_set_self hj] at hi
        · rw [List.getElem?_set_ne hij] at hi; exact h.setting i ws hi
      · intro i hi
        by_cases hij : j = i
        · subst hij
          refine ⟨addr, P, ha, hf, fun kv hkv => ?_⟩
          rcases hcov kv hkv with hin | hreg
          · simp at hin
          · exact hreg
        · rw [List.getElem?_set_ne hij] at hi; exact h.finished i hi
      · simp only [List.countP_set _ _ _ _ hj, hgj, h.count]
        simp
    | cons kv rest =>
      obtain ⟨k, v⟩ := kv
      obtain ⟨addr, P, ha, hf, hsub, hcov⟩ := h.setting j ((k, v) :: rest) hg
      have hmem : addr ∈ addrs := List.mem_iff_getElem?.mpr ⟨j, ha⟩
      have hw : Written w addrs k v := ⟨addr, hmem, P, hf, hsub _ (List.mem_cons_self _ _)⟩
      rw [Cycle.step_set he hg]
      refine ⟨by simp [h.len], ?_, ?_, ?_, ?_, ?_⟩
      · intro i a hi
        by_cases hij : j = i
        · subst hij; simp [List.getElem?_set_self hj] at hi
        · rw [List.getElem?_set_ne hij] at hi; exact h.fetching i a hi
      · intro i ws hi
        by_cases hij : j = i
        · subst hij
          simp [List.getElem?_set_self hj] at hi
          subst hi
          refine ⟨addr, P, ha, hf, fun kv hkv => hsub kv (List.mem_cons_of_mem _ hkv), ?_⟩
          intro kv hkv
          rcases hcov kv hkv with hin | hreg
          · rcases List.mem_cons.mp hin with heq | hin
            · subst heq; exact Or.inr ⟨v, Registry.Set_self _ _ _, hw⟩
            · exact Or.inl hin
          · exact Or.inr (hw.keep _ hreg)
        · rw [List.getElem?_set_ne hij] at hi
          obtain ⟨a, Q, ha', hf', hsub', hcov'⟩ := h.setting i ws hi
          refine ⟨a, Q, ha', hf', hsub', fun kv hkv => ?_⟩
          rcases hcov' kv hkv with hin | hreg
          · exact Or.inl hin
          · exact Or.inr (hw.keep _ hreg)
      · intro i hi
        by_cases hij : j = i
        · subst hij; simp [List.getElem?_set_self hj] at hi
        · rw [List.getElem?_set_ne hij] at hi
          obtain ⟨a, Q, ha', hf', hcov'⟩ := h.finished i hi
          exact ⟨a, Q, ha', hf', fun kv hkv => hw.keep _ (hcov' kv hkv)⟩
      · intro k'
        by_cases hk : k' = k
        · subst hk; exact Or.inr ⟨v, Registry.Set_self _ _ _, hw⟩
        · show c.registry.Set k v k' = R k' ∨ ∃ v0, c.registry.Set k v k' = some v0 ∧ _
          rw [Registry.Set_ne _ _ hk]; exact h.frame k'
      · have h1 : 0 < c.goroutines.countP (fun g => g != Goroutine.finished) :=
          List.countP_pos_iff.mpr ⟨_, List.getElem_mem hj, by simp [hgj]⟩
        simp only [List.countP_set _ _ _ _ hj, hgj, h.count]
        simp
        omega

theorem Cycle.inv_exec (w : World) (addrs : List String) (R : Registry) (sched : List Nat) :
    Cycle.Inv w addrs R ((Cycle.start R addrs).exec w sched) :=
  Cycle.exec_induction (Cycle.Inv w addrs R) (fun _ i h => Cycle.inv_step h i) sched _
    (Cycle.inv_start w addrs R)

theorem Cycle.outcome_registry (c : Cycle) : c.outcome.registry = c.registry := by
  unfold Cycle.outcome
  cases he : c.exit with
  | some e => simp [Outcome.registry]
  | none => by_cases hw : c.wg = 0 <;> simp [hw, Outcome.registry]

theorem Cycle.outcome_returned_iff (c : Cycle) (R' : Registry) :
    c.outcome = .returned R' ↔ c.exit = none ∧ c.wg = 0 ∧ c.registry = R' := by
  unfold Cycle.outcome
  cases he : c.exit with
  | some e => simp
  | none => by_cases hw : c.wg = 0 <;> simp [hw]

theorem fetchStats_registry (w : World) (addrs : List String) (sched : List Nat) (R : Registry) :
    (fetchStats w addrs sched R).registry = ((Cycle.start R addrs).exec w sched).registry :=
  Cycle.outcome_registry _

theorem fetchStats_returned_iff (w : World) (addrs : List String) (sched : List Nat)
    (R R' : Registry) :
    fetchStats w addrs sched R = .returned R' ↔
      ((Cycle.start R addrs).exec w sched).exit = none ∧
      ((Cycle.start R addrs).exec w sched).wg = 0 ∧
      ((Cycle.start R addrs).exec w sched).registry = R' :=
  Cycle.outcome_returned_iff _ _

theorem Cycle.Inv.all_finished {w : World} {addrs : List String} {R : Registry} {c : Cycle}
    (h : Cycle.Inv w addrs R c) (hw : c.wg = 0) : ∀ g ∈ c.goroutines, g = Goroutine.finished := by
  have h0 : c.goroutines.countP (fun g => g != Goroutine.finished) = 0 := by
    rw [← h.count]; exact hw
  intro g hg
  have := List.countP_eq_zero.mp h0 g hg
  simpa using this

theorem Cycle.Inv.of_addr {w : World} {addrs : List String} {R : Registry} {c : Cycle}
    (h : Cycle.Inv w addrs R c) (hw : c.wg = 0) {addr : String} (ha : addr ∈ addrs) :
    ∃ P, fetch w addr = .ok P ∧
      ∀ kv ∈ writes P, ∃ v, c.registry kv.1 = some v ∧ Written w addrs kv.1 v := by
  obtain ⟨i, hi⟩ := List.mem_iff_getElem?.mp ha
  obtain ⟨hlt, _⟩ := List.getElem?_eq_some.mp hi
  have hlt' : i < c.goroutines.length := by rw [h.len]; exact hlt
  have hfin : c.goroutines[i]? = some Goroutine.finished := by
    rw [List.getElem?_eq_getElem hlt']
    exact congrArg some (h.all_finished hw _ (List.getElem_mem hlt'))
  obtain ⟨a, P, ha', hf, hcov⟩ := h.finished i hfin
  rw [hi] at ha'
  cases ha'
  exact ⟨P, hf, hcov⟩

/-- What a returned cycle guarantees: every fetch succeeded, every key some
goroutine writes holds a value some goroutine wrote to it, and every key
holds its old value or a value some goroutine wrote to it. -/
theorem fetchStats_returned {w : World} {addrs : List String} {sched : List Nat}
    {R R' : Registry} (h : fetchStats w addrs sched R = .returned R') :
    (∀ addr ∈ addrs, ∃ P, fetch w addr = .ok P) ∧
    (∀ k v, Written w addrs k v → ∃ v', R' k = some v' ∧ Written w addrs k v') ∧
    (∀ k, R' k = R k ∨ ∃ v, R' k = some v ∧ Written w addrs k v) := by
  obtain ⟨_, hw, hr⟩ := (fetchStats_returned_iff w addrs sched R R').mp h
  have hinv := Cycle.inv_exec w addrs R sched
  subst hr
  refine ⟨fun addr ha => ?_, fun k v hkv => ?_, hinv.frame⟩
  · obtain ⟨P, hf, _⟩ := hinv.of_addr hw ha
    exact ⟨P, hf⟩
  · obtain ⟨addr, ha, P, hf, hmem⟩ := hkv
    obtain ⟨Q, hf', hcov⟩ := hinv.of_addr hw ha
    rw [hf] at hf'
    cases hf'
    exact hcov (k, v) hmem

/-- Every key of the registry of a cycle, returned or not, holds its old value
or a value some goroutine of the cycle wrote to it. -/
theorem fetchStats_frame (w : World) (addrs : List String) (sched : List Nat) (R : Registry)
    (k : Key) :
    (fetchStats w addrs sched R).registry k = R k ∨
      ∃ v, (fetchStats w addrs sched R).registry k = some v ∧ Written w addrs k v := by
  rw [fetchStats_registry]
  exact (Cycle.inv_exec w addrs R sched).frame k

/-! ## One goroutine run to its end -/

theorem set_of_getElem? {α : Type} {a : α} :
    ∀ (l : List α) (i : Nat), l[i]? = some a → l.set i a = l := by
  intro l
  induction l with
  | nil => intro i h; rfl
  | cons x t ih =>
    intro i h
    cases i with
    | zero => simp at h; simp [h]
    | succ n => simp at h; simp [ih n h]

theorem getElem?_append_cons_length {α : Type} (pre t : List α) (a : α) :
    (pre ++ a :: t)[pre.length]? = some a := by
  rw [List.getElem?_append_right (Nat.le_refl _)]
  simp

theorem Cycle.exec_setting (w : World) (i : Nat) :
    ∀ (ws : List (Key × Float64)) (c : Cycle), c.exit = none →
      c.goroutines[i]? = some (Goroutine.setting ws) →
      (c.exec w (List.replicate ws.length i)).registry
          = ws.foldl (fun R kv => R.Set kv.1 kv.2) c.registry ∧
      (c.exec w (List.replicate ws.length i)).goroutines
          = c.goroutines.set i (Goroutine.setting []) ∧
      (c.exec w (List.replicate ws.length i)).wg = c.wg ∧
      (c.exec w (List.replicate ws.length i)).exit = none := by
  intro ws
  induction ws with
  | nil =>
    intro c he hg
    refine ⟨rfl, ?_, rfl, he⟩
    show c.goroutines = _
    rw [set_of_getElem? _ _ hg]
  | cons kv rest ih =>
    intro c he hg
    obtain ⟨k, v⟩ := kv
    obtain ⟨hj, _⟩ := List.getElem?_eq_some.mp hg
    have hs := Cycle.step_set (w := w) he hg
    simp only [List.length_cons, List.replicate_succ, Cycle.exec_cons, hs]
    have := ih { c with registry := c.registry.Set k v,
                        goroutines := c.goroutines.set i (.setting rest) } he
      (List.getElem?_set_self hj)
    simpa [List.set_set] using this

theorem Cycle.exec_goroutine (w : World) (i : Nat) (c : Cycle) (addr : String)
    (P : PurpleAirData) (he : c.exit = none)
    (hg : c.goroutines[i]? = some (Goroutine.fetching addr)) (hf : fetch w addr = .ok P) :
    (c.exec w (List.replicate 10 i)).registry = publish c.registry P ∧
    (c.exec w (List.replicate 10 i)).goroutines = c.goroutines.set i Goroutine.finished ∧
    (c.exec w (List.replicate 10 i)).wg = c.wg - 1 ∧
    (c.exec w (List.replicate 10 i)).exit = none := by
  obtain ⟨hj, _⟩ := List.getElem?_eq_some.mp hg
  have h10 : List.replicate 10 i = i :: (List.replicate (writes P).length i ++ [i]) := by
    simp [writes, List.replicate_succ]
  rw [h10, Cycle.exec_cons, Cycle.exec_append, Cycle.step_fetch_ok he hg hf]
  obtain ⟨hr, hgs, hwg, hex⟩ := Cycle.exec_setting w i (writes P)
    { c with goroutines := c.goroutines.set i (.setting (writes P)) } he
    (List.getElem?_set_self hj)
  have hg' : (Cycle.exec w { c with goroutines := c.goroutines.set i (.setting (writes P)) }
      (List.replicate (writes P).length i)).goroutines[i]? = some (Goroutine.setting []) := by
    rw [hgs]; simp [List.set_set, List.getElem?_set_self hj]
  rw [Cycle.exec_cons, Cycle.exec_nil, Cycle.step_done hex hg']
  simp only [hr, hgs, hwg, hex, List.set_set]
  exact ⟨rfl, trivial, trivial, trivial⟩

theorem Cycle.exec_seq (w : World) :
    ∀ (rest : List String) (pre : List Goroutine) (c : Cycle), c.exit = none →
      c.goroutines = pre ++ rest.map Goroutine.fetching →
      (∀ a ∈ rest, ∃ P, fetch w a = .ok P) →
      (c.exec w ((List.range' pre.length rest.length).flatMap
          fun i => List.replicate 10 i)).exit = none ∧
      (c.exec w ((List.range' pre.length rest.length).flatMap
          fun i => List.replicate 10 i)).goroutines
        = pre ++ rest.map fun _ => Goroutine.finished := by
  intro rest
  induction rest with
  | nil => intro pre c he hg _; exact ⟨he, by simpa using hg⟩
  | cons a t ih =>
    intro pre c he hg hok
    obtain ⟨P, hf⟩ := hok a (List.mem_cons_self _ _)
    have hga : c.goroutines[pre.length]? = some (Goroutine.fetching a) := by
      rw [hg]; exact getElem?_append_cons_length _ _ _
    obtain ⟨_, hgs, _, hex⟩ := Cycle.exec_goroutine w pre.length c a P he hga hf
    have hgs' : (c.exec w (List.replicate 10 pre.length)).goroutines
        = (pre ++ [Goroutine.finished]) ++ t.map Goroutine.fetching := by
      rw [hgs, hg]; simp
    have := ih (pre ++ [Goroutine.finished]) _ hex hgs'
      (fun b hb => hok b (List.mem_cons_of_mem _ hb))
    simp only [List.length_cons, List.range'_succ, List.flatMap_cons, Cycle.exec_append]
    simpa using this

/-- When every fetch succeeds, `fetchStats` returns under the schedule that
runs the goroutines one after the other. -/
theorem fetchStats_seq_returns (w : World) (addrs : List String) (R : Registry)
    (hok : ∀ a ∈ addrs, ∃ P, fetch w a = .ok P) :
    ∃ R', fetchStats w addrs (seqSchedule addrs.length) R = .returned R' := by
  obtain ⟨hex, hgs⟩ := Cycle.exec_seq w addrs [] (Cycle.start R addrs) rfl
    (by simp [Cycle.start]) hok
  simp only [List.length_nil, List.nil_append] at hex hgs
  have hinv := Cycle.inv_exec w addrs R (seqSchedule addrs.length)
  have hsched : seqSchedule addrs.length
      = (List.range' 0 addrs.length).flatMap fun i => List.replicate 10 i := by
    simp [seqSchedule, List.range_eq_range']
  rw [hsched] at hinv
  refine ⟨_, (fetchStats_returned_iff w addrs _ R _).mpr ⟨?_, ?_, rfl⟩⟩
  · rw [hsched]; exact hex
  · rw [hsched, hinv.count, hgs]
    simp [List.countP_eq_zero]

/-! ## The writes of a payload -/

theorem mem_writes_iff (P : PurpleAirData) (k : Key) (v : Float64) :
    (k, v) ∈ writes P ↔
      (k = ⟨"sensor_id", [P.SensorId, P.SensorId]⟩ ∧ v = one) ∨
      (k = ⟨"version", [P.SensorId, P.Version]⟩ ∧ v = one) ∨
      (k = ⟨"temp_f", [P.SensorId]⟩ ∧ v = P.Temperature) ∨
      (k = ⟨"humidity", [P.SensorId]⟩ ∧ v = P.Humidity) ∨
      (k = ⟨"dewpoint", [P.SensorId]⟩ ∧ v = P.Dewpoint) ∨
      (k = ⟨"pressure", [P.SensorId]⟩ ∧ v = P.Pressure) ∨
      (k = ⟨"pm2_5_aqi", [P.SensorId, "a"]⟩ ∧ v = P.Pm25AqiA) ∨
      (k = ⟨"pm2_5_aqi", [P.SensorId, "b"]⟩ ∧ v = P.Pm25AqiB) := by
  simp [writes, GaugeVec.WithLabelValues, sensorId, version, temp, humidity, dewpoint,
    pressure, pm25aqi]

/-- Two payloads that write one key carry the same SensorId. -/
theorem writes_same_host {P Q : PurpleAirData} {k : Key} {v v' : Float64}
    (h1 : (k, v) ∈ writes P) (h2 : (k, v') ∈ writes Q) : P.SensorId = Q.SensorId := by
  rw [mem_writes_iff] at h1 h2
  rcases h1 with ⟨rfl, _⟩ | ⟨rfl, _⟩ | ⟨rfl, _⟩ | ⟨rfl, _⟩ | ⟨rfl, _⟩ | ⟨rfl, _⟩ | ⟨rfl, _⟩ |
    ⟨rfl, _⟩ <;>
  rcases h2 with ⟨h, _⟩ | ⟨h, _⟩ | ⟨h, _⟩ | ⟨h, _⟩ | ⟨h, _⟩ | ⟨h, _⟩ | ⟨h, _⟩ | ⟨h, _⟩ <;>
  simp at h <;> simp [h]

/-- Two payloads with the same readings write the same value to a key they
both write. -/
theorem writes_agree {P Q : PurpleAirData} {k : Key} {v v' : Float64}
    (hs : SameReadings P Q) (h1 : (k, v) ∈ writes P) (h2 : (k, v') ∈ writes Q) : v = v' := by
  obtain ⟨t, hu, d, p, a, b⟩ := hs
  rw [mem_writes_iff] at h1 h2
  rcases h1 with ⟨rfl, rfl⟩ | ⟨rfl, rfl⟩ | ⟨rfl, rfl⟩ | ⟨rfl, rfl⟩ | ⟨rfl, rfl⟩ | ⟨rfl, rfl⟩ |
    ⟨rfl, rfl⟩ | ⟨rfl, rfl⟩ <;>
  rcases h2 with ⟨h, rfl⟩ | ⟨h, rfl⟩ | ⟨h, rfl⟩ | ⟨h, rfl⟩ | ⟨h, rfl⟩ | ⟨h, rfl⟩ | ⟨h, rfl⟩ |
    ⟨h, rfl⟩ <;>
  first
    | rfl
    | assumption
    | (exfalso; simp at h)

theorem writes_functional {P : PurpleAirData} {k : Key} {v v' : Float64}
    (h1 : (k, v) ∈ writes P) (h2 : (k, v') ∈ writes P) : v = v' :=
  writes_agree ⟨rfl, rfl, rfl, rfl, rfl, rfl⟩ h1 h2

/-- Every write to a `version` key stores 1. -/
theorem writes_version {P : PurpleAirData} {k : Key} {v : Float64}
    (h1 : (k, v) ∈ writes P) (hk : k.name = "version") : v = one := by
  rw [mem_writes_iff] at h1
  rcases h1 with ⟨rfl, rfl⟩ | ⟨rfl, rfl⟩ | ⟨rfl, rfl⟩ | ⟨rfl, rfl⟩ | ⟨rfl, rfl⟩ | ⟨rfl, rfl⟩ |
    ⟨rfl, rfl⟩ | ⟨rfl, rfl⟩ <;>
  first
    | rfl
    | (exfalso; simp at hk)

theorem reflects_iff (R : Registry) (P : PurpleAirData) :
    R.Reflects P ↔ ∀ kv ∈ writes P, R kv.1 = some kv.2 := by
  simp [Registry.Reflects, writes]

theorem publish_reflects (R : Registry) (P : PurpleAirData) : (publish R P).Reflects P := by
  simp [Registry.Reflects, publish, writes, Registry.Set, GaugeVec.WithLabelValues, sensorId,
    version, temp, humidity, dewpoint, pressure, pm25aqi]

/-! ## C1: a processed payload is reflected in the registry -/

/-- C1 as stated fails: the payload `twinPayloadA` with 72.5 F is fetched and
decoded from `10.0.0.5:80`, the cycle on both sensors returns, and the registry
holds temp_f{abc123} = 70.0, written last by the goroutine of `10.0.0.6:80`,
which reports the same SensorId. -/
theorem payload_overwritten :
    fetch twinWorld "10.0.0.5:80" = .ok twinPayloadA ∧
    (fetchStats twinWorld ["10.0.0.5:80", "10.0.0.6:80"] (seqSchedule 2)
      Registry.empty).isReturned = true ∧
    (fetchStats twinWorld ["10.0.0.5:80", "10.0.0.6:80"] (seqSchedule 2)
      Registry.empty).registry ⟨"temp_f", ["abc123"]⟩ = some 0x4051800000000000 ∧
    ¬ ((fetchStats twinWorld ["10.0.0.5:80", "10.0.0.6:80"] (seqSchedule 2)
      Registry.empty).registry).Reflects twinPayloadA := by
  have h70 : (fetchStats twinWorld ["10.0.0.5:80", "10.0.0.6:80"] (seqSchedule 2)
      Registry.empty).registry ⟨"temp_f", ["abc123"]⟩ = some 0x4051800000000000 := by rfl
  refine ⟨by rfl, by rfl, h70, fun h => ?_⟩
  have h72 : (fetchStats twinWorld ["10.0.0.5:80", "10.0.0.6:80"] (seqSchedule 2)
      Registry.empty).registry ⟨"temp_f", ["abc123"]⟩ = some 0x4052200000000000 := h.2.2.1
  exact absurd (h70.symm.trans h72) (by decide)

/-- C1 (amended). For every registry `R`, every address list and every payload
`P` fetched and decoded from an address of the list, if every payload fetched
in the cycle that carries the SensorId of `P` carries the six readings of `P`
(so in particular if no other sensor of the list reports that SensorId):
(1) when every fetch succeeds the cycle returns under the schedule that runs
the goroutines one after the other; (2) whenever the cycle returns, under any
schedule, the registry holds the eight mapped fields of `P` under
host = `P.SensorId`, whatever `R` held; (3) in any state of any cycle, with any
registry and any other goroutines, running the goroutine of the address through
its ten steps with no other step in between leaves the eight mapped fields of
`P` in the registry. -/
theorem fetchStats_reflects_payload (w : World) (addrs : List String) (addr : String)
    (P : PurpleAirData) (R : Registry) (ha : addr ∈ addrs) (hf : fetch w addr = .ok P)
    (hsame : ∀ b ∈ addrs, ∀ Q, fetch w b = .ok Q → Q.SensorId = P.SensorId →
      SameReadings P Q) :
    ((∀ b ∈ addrs, ∃ Q, fetch w b = .ok Q) →
      ∃ R', fetchStats w addrs (seqSchedule addrs.length) R = .returned R') ∧
    (∀ sched R', fetchStats w addrs sched R = .returned R' → R'.Reflects P) ∧
    (∀ (c : Cycle) (i : Nat), c.exit = none →
      c.goroutines[i]? = some (Goroutine.fetching addr) →
      ((c.exec w (List.replicate 10 i)).registry).Reflects P) := by
  refine ⟨fun hok => fetchStats_seq_returns w addrs R hok, ?_, ?_⟩
  · intro sched R' hr
    obtain ⟨_, hcov, _⟩ := fetchStats_returned hr
    rw [reflects_iff]
    intro kv hkv
    obtain ⟨v', hv', b, hb, Q, hQ, hm⟩ := hcov kv.1 kv.2 ⟨addr, ha, P, hf, hkv⟩
    have hid : P.SensorId = Q.SensorId := writes_same_host hkv hm
    rw [hv', writes_agree (hsame b hb Q hQ hid.symm) hkv hm]
  · intro c i he hg
    rw [(Cycle.exec_goroutine w i c addr P he hg hf).1]
    exact publish_reflects _ _

/-- C1 (amended) on the end-to-end scenario with a second sensor of another
SensorId beside it, the two goroutines taking turns: the cycle returns and the
registry holds temp_f{abc123} = 72.5, pm2_5_aqi{abc123,a} = 12.0,
pm2_5_aqi{abc123,b} = 11.5 and sensor_id{abc123,abc123} = 1. -/
theorem fetchStats_reflects_payload_witness :
    "10.0.0.5:80" ∈ ["10.0.0.5:80", "10.0.0.6:80"] ∧
    fetch pairWorld "10.0.0.5:80" = .ok samplePayload ∧
    fetch pairWorld "10.0.0.6:80" = .ok otherPayload ∧
    (fetchStats pairWorld ["10.0.0.5:80", "10.0.0.6:80"] turnSchedule
      Registry.empty).isReturned = true ∧
    (fetchStats pairWorld ["10.0.0.5:80", "10.0.0.6:80"] turnSchedule
      Registry.empty).registry ⟨"temp_f", ["abc123"]⟩ = some 0x4052200000000000 ∧
    (fetchStats pairWorld ["10.0.0.5:80", "10.0.0.6:80"] turnSchedule
      Registry.empty).registry ⟨"pm2_5_aqi", ["abc123", "a"]⟩ = some 0x4028000000000000 ∧
    (fetchStats pairWorld ["10.0.0.5:80", "10.0.0.6:80"] turnSchedule
      Registry.empty).registry ⟨"pm2_5_aqi", ["abc123", "b"]⟩ = some 0x4027000000000000 ∧
    (fetchStats pairWorld ["10.0.0.5:80", "10.0.0.6:80"] turnSchedule
      Registry.empty).registry ⟨"sensor_id", ["abc123", "abc123"]⟩
        = some 0x3FF0000000000000 := by
  have hf : fetch pairWorld "10.0.0.5:80" = .ok samplePayload := by rfl
  have hg : fetch pairWorld "10.0.0.6:80" = .ok otherPayload := by rfl
  have hsame : ∀ b ∈ ["10.0.0.5:80", "10.0.0.6:80"], ∀ Q, fetch pairWorld b = .ok Q →
      Q.SensorId = samplePayload.SensorId → SameReadings samplePayload Q := by
    intro b hb Q hQ hid
    simp only [List.mem_cons, List.mem_singleton, List.not_mem_nil, or_false] at hb
    rcases hb with rfl | rfl
    · rw [hf] at hQ
      cases hQ
      exact ⟨rfl, rfl, rfl, rfl, rfl, rfl⟩
    · rw [hg] at hQ
      cases hQ
      exact absurd hid (by decide)
  have hret : fetchStats pairWorld ["10.0.0.5:80", "10.0.0.6:80"] turnSchedule Registry.empty
      = .returned (fetchStats pairWorld ["10.0.0.5:80", "10.0.0.6:80"] turnSchedule
          Registry.empty).registry := by rfl
  obtain ⟨h1, _, h3, _, _, _, h7, h8⟩ :=
    (fetchStats_reflects_payload pairWorld ["10.0.0.5:80", "10.0.0.6:80"] "10.0.0.5:80"
      samplePayload Registry.empty (by decide) hf hsame).2.1 _ _ hret
  exact ⟨by decide, hf, hg, by rfl, h3, h7, h8, h1⟩

/-! ## C9: keys are kept -/

/-- C9. For every registry `R`, every cycle (address list, network, schedule,
returned or not) and every key: a key present in `R` is present afterwards;
a key that is not among the keys written for a payload fetched successfully
in the cycle keeps its value; and a marker version{host, ver} that held 1
still holds 1, also after the sensor has reported another version. -/
theorem fetchStats_keeps_keys (w : World) (addrs : List String) (sched : List Nat)
    (R : Registry) (k : Key) :
    (R k ≠ none → (fetchStats w addrs sched R).registry k ≠ none) ∧
    ((∀ addr ∈ addrs, ∀ P, fetch w addr = .ok P → k ∉ keysOf P) →
      (fetchStats w addrs sched R).registry k = R k) ∧
    (∀ host ver, k = version.WithLabelValues [host, ver] → R k = some one →
      (fetchStats w addrs sched R).registry k = some one) := by
  have hfr := fetchStats_frame w addrs sched R k
  refine ⟨fun hk => ?_, fun hno => ?_, fun host ver hkey hone => ?_⟩
  · rcases hfr with h | ⟨v, h, _⟩
    · rw [h]; exact hk
    · rw [h]; simp
  · rcases hfr with h | ⟨v, _, addr, ha, P, hf, hm⟩
    · exact h
    · exact absurd (List.mem_map.mpr ⟨(k, v), hm, rfl⟩) (hno addr ha P hf)
  · rcases hfr with h | ⟨v, h, addr, ha, P, hf, hm⟩
    · rw [h]; exact hone
    · rw [h, writes_version hm (by rw [hkey]; rfl)]

/-- C9 at a concrete cycle: the registry holds version{abc123, 6.0} = 1 from an
earlier firmware and the sensor now reports version 7.0; after the cycle the
old marker is still there with value 1. -/
theorem fetchStats_keeps_keys_witness :
    (Registry.empty.Set ⟨"version", ["abc123", "6.0"]⟩ one) ⟨"version", ["abc123", "6.0"]⟩
      = some one ∧
    (fetchStats sampleWorld ["10.0.0.5:80"] (seqSchedule 1)
      (Registry.empty.Set ⟨"version", ["abc123", "6.0"]⟩ one)).registry
        ⟨"version", ["abc123", "6.0"]⟩ = some one :=
  ⟨by rfl, (fetchStats_keeps_keys sampleWorld ["10.0.0.5:80"] (seqSchedule 1)
    (Registry.empty.Set ⟨"version", ["abc123", "6.0"]⟩ one) ⟨"version", ["abc123", "6.0"]⟩).2.2
    "abc123" "6.0" rfl (by rfl)⟩

/-! ## C7: the keys of two writers -/

theorem mem_keysOf (P : PurpleAirData) (k : Key) : k ∈ keysOf P ↔ ∃ v, (k, v) ∈ writes P := by
  simp [keysOf]

/-- C7 as stated fails: `10.0.0.5:80` and `10.0.0.6:80` are distinct addresses,
both fetches succeed, and both goroutines write the key temp_f{abc123}. -/
theorem writers_not_disjoint :
    "10.0.0.5:80" ≠ "10.0.0.6:80" ∧
    fetch twinWorld "10.0.0.5:80" = .ok twinPayloadA ∧
    fetch twinWorld "10.0.0.6:80" = .ok twinPayloadB ∧
    (⟨"temp_f", ["abc123"]⟩ : Key) ∈ keysOf twinPayloadA ∧
    (⟨"temp_f", ["abc123"]⟩ : Key) ∈ keysOf twinPayloadB :=
  ⟨by decide, by rfl, by rfl, by decide, by decide⟩

/-- C7 (amended). The keys written for two payloads are disjoint exactly when
the payloads carry different SensorIds: the host label of every key is the
SensorId of the payload, not the address it was fetched from. -/
theorem writers_disjoint_iff (P Q : PurpleAirData) :
    (∀ k, k ∈ keysOf P → k ∉ keysOf Q) ↔ P.SensorId ≠ Q.SensorId := by
  constructor
  · intro h heq
    refine h ⟨"temp_f", [P.SensorId]⟩ ?_ ?_
    · rw [mem_keysOf]; exact ⟨P.Temperature, by rw [mem_writes_iff]; simp⟩
    · rw [mem_keysOf]; exact ⟨Q.Temperature, by rw [mem_writes_iff, heq]; simp⟩
  · intro hne k hP hQ
    rw [mem_keysOf] at hP hQ
    obtain ⟨v, hv⟩ := hP
    obtain ⟨v', hv'⟩ := hQ
    exact hne (writes_same_host hv hv')

/-! ## C4: the status code -/

theorem fetch_withStatus (w : World) (f : String → Nat → Nat) (addr : String) :
    fetch (w.withStatus f) addr = fetch w addr := by
  unfold fetch World.withStatus
  cases h : w.Get ("http://" ++ addr ++ "/json") with
  | error err => simp [h]
  | ok resp => simp [h]

theorem Cycle.step_withStatus (w : World) (f : String → Nat → Nat) (c : Cycle) (i : Nat) :
    c.step (w.withStatus f) i = c.step w i := by
  unfold Cycle.step
  simp only [fetch_withStatus]

/-- C4 as stated fails: the sensor answers 500 with a valid status document;
the cycle returns and temp_f{abc123} = 72.5 has been written. -/
theorem non2xx_is_published :
    (match errorWorld.Get "http://10.0.0.5:80/json" with
      | .ok resp => resp.StatusCode
      | .error _ => 0) = 500 ∧
    (fetchStats errorWorld ["10.0.0.5:80"] (seqSchedule 1) Registry.empty).isReturned = true ∧
    (fetchStats errorWorld ["10.0.0.5:80"] (seqSchedule 1) Registry.empty).registry
      ⟨"temp_f", ["abc123"]⟩ = some 0x4052200000000000 :=
  ⟨by rfl, by rfl, by rfl⟩

/-- C4 (amended). The status code of a response is never examined: with the
status codes of all responses replaced by any others, every cycle under every
schedule ends the same way with the same registry.  A non-2xx response whose
body reads and decodes is published like a 2xx one. -/
theorem fetchStats_ignores_status (w : World) (f : String → Nat → Nat) (addrs : List String)
    (sched : List Nat) (R : Registry) :
    fetchStats (w.withStatus f) addrs sched R = fetchStats w addrs sched R := by
  have hstep : Cycle.step (w.withStatus f) = Cycle.step w := by
    funext c i; exact Cycle.step_withStatus w f c i
  simp only [fetchStats, Cycle.exec, hstep]

/-! ## C2: a failed fetch -/

/-- C2 on the code: of two configured sensors the second refuses the
connection.  Under no schedule does the cycle return; when the goroutine of
the failed sensor runs first the process exits with status 1, and the metrics
of the reachable sensor are never written. -/
theorem fetchStats_fatal_on_failure :
    (∀ sched R', fetchStats sampleWorld ["10.0.0.5:80", "10.0.0.6:80"] sched Registry.empty
      ≠ .returned R') ∧
    (fetchStats sampleWorld ["10.0.0.5:80", "10.0.0.6:80"] [1] Registry.empty).exitCode
      = some 1 ∧
    (fetchStats sampleWorld ["10.0.0.5:80", "10.0.0.6:80"] (1 :: seqSchedule 2)
      Registry.empty).exitCode = some 1 ∧
    (fetchStats sampleWorld ["10.0.0.5:80", "10.0.0.6:80"] (1 :: seqSchedule 2)
      Registry.empty).registry ⟨"temp_f", ["abc123"]⟩ = none := by
  refine ⟨fun sched R' h => ?_, by rfl, by rfl, by rfl⟩
  obtain ⟨P, hP⟩ := (fetchStats_returned h).1 "10.0.0.6:80" (by simp)
  have : fetch sampleWorld "10.0.0.6:80" = .error "connection refused" := by rfl
  rw [this] at hP
  cases hP

/-! ## C5: two cycles in a row -/

/-- C5 as stated fails: two sensors report the same SensorId with different
temperatures, each the same on every request.  In the first cycle the
goroutine of `10.0.0.6:80` writes last and temp_f{abc123} = 70.0; in the
second cycle the goroutine of `10.0.0.5:80` writes last and
temp_f{abc123} = 72.5. -/
theorem fetchStats_not_idempotent :
    (fetchStats twinWorld ["10.0.0.5:80", "10.0.0.6:80"] (seqSchedule 2)
      Registry.empty).isReturned = true ∧
    (fetchStats twinWorld ["10.0.0.5:80", "10.0.0.6:80"] (seqSchedule 2)
      Registry.empty).registry ⟨"temp_f", ["abc123"]⟩ = some 0x4051800000000000 ∧
    (fetchStats twinWorld ["10.0.0.5:80", "10.0.0.6:80"]
      (List.replicate 10 1 ++ List.replicate 10 0)
      (fetchStats twinWorld ["10.0.0.5:80", "10.0.0.6:80"] (seqSchedule 2)
        Registry.empty).registry).isReturned = true ∧
    (fetchStats twinWorld ["10.0.0.5:80", "10.0.0.6:80"]
      (List.replicate 10 1 ++ List.replicate 10 0)
      (fetchStats twinWorld ["10.0.0.5:80", "10.0.0.6:80"] (seqSchedule 2)
        Registry.empty).registry).registry ⟨"temp_f", ["abc123"]⟩
      = some 0x4052200000000000 :=
  ⟨by rfl, by rfl, by rfl, by rfl⟩

theorem written_agree {w : World} {addrs : List String}
    (hsame : ∀ a ∈ addrs, ∀ b ∈ addrs, ∀ P Q, fetch w a = .ok P → fetch w b = .ok Q →
      P.SensorId = Q.SensorId → SameReadings P Q)
    {k : Key} {v v' : Float64} (h1 : Written w addrs k v) (h2 : Written w addrs k v') :
    v = v' := by
  obtain ⟨a, ha, P, hP, hm⟩ := h1
  obtain ⟨b, hb, Q, hQ, hm'⟩ := h2
  exact writes_agree (hsame a ha b hb P Q hP hQ (writes_same_host hm hm')) hm hm'

/-- C5 (amended). For every registry `R` and every address list whose fetches
all succeed with the same payload on every request, and in which any two
sensors that report the same SensorId report the same six readings: the cycle
returns under the schedule that runs the goroutines one after the other, and
whenever a cycle from `R` returns `R1` and a second cycle from `R1` returns
`R2`, under any two schedules, `R2 = R1`. -/
theorem fetchStats_idempotent (w : World) (addrs : List String) (R : Registry)
    (hok : ∀ a ∈ addrs, ∃ P, fetch w a = .ok P)
    (hsame : ∀ a ∈ addrs, ∀ b ∈ addrs, ∀ P Q, fetch w a = .ok P → fetch w b = .ok Q →
      P.SensorId = Q.SensorId → SameReadings P Q) :
    (∃ R1, fetchStats w addrs (seqSchedule addrs.length) R = .returned R1) ∧
    ∀ s1 s2 R1 R2, fetchStats w addrs s1 R = .returned R1 →
      fetchStats w addrs s2 R1 = .returned R2 → R2 = R1 := by
  refine ⟨fetchStats_seq_returns w addrs R hok, ?_⟩
  intro s1 s2 R1 R2 h1 h2
  obtain ⟨_, hcov, _⟩ := fetchStats_returned h1
  obtain ⟨_, _, hfr⟩ := fetchStats_returned h2
  funext k
  rcases hfr k with h | ⟨v, hv, hw⟩
  · exact h
  · obtain ⟨v', hv', hw'⟩ := hcov k v hw
    rw [hv, hv', written_agree hsame hw hw']

/-- C5 (amended) on the end-to-end scenario: the cycle on the one sensor
returns a registry, and the next cycle from that registry returns the same
registry. -/
theorem fetchStats_idempotent_witness :
    (∀ a ∈ ["10.0.0.5:80"], ∃ P, fetch sampleWorld a = .ok P) ∧
    ∃ R1, fetchStats sampleWorld ["10.0.0.5:80"] (seqSchedule 1) Registry.empty = .returned R1 ∧
      fetchStats sampleWorld ["10.0.0.5:80"] (seqSchedule 1) R1 = .returned R1 := by
  have hok : ∀ a ∈ ["10.0.0.5:80"], ∃ P, fetch sampleWorld a = .ok P := by
    intro a ha
    simp at ha
    subst ha
    exact ⟨samplePayload, by rfl⟩
  have hsame : ∀ a ∈ ["10.0.0.5:80"], ∀ b ∈ ["10.0.0.5:80"], ∀ P Q,
      fetch sampleWorld a = .ok P → fetch sampleWorld b = .ok Q →
      P.SensorId = Q.SensorId → SameReadings P Q := by
    intro a ha b hb P Q hP hQ _
    simp at ha hb
    subst ha hb
    rw [hP] at hQ
    cases hQ
    exact ⟨rfl, rfl, rfl, rfl, rfl, rfl⟩
  obtain ⟨⟨R1, h1⟩, hidem⟩ := fetchStats_idempotent sampleWorld ["10.0.0.5:80"] Registry.empty
    hok hsame
  obtain ⟨R2, h2⟩ := fetchStats_seq_returns sampleWorld ["10.0.0.5:80"] R1 hok
  have h12 : R2 = R1 := hidem _ _ _ _ h1 h2
  rw [h12] at h2
  exact ⟨hok, R1, h1, h2⟩

/-! ## The states `run` reaches -/

theorem Cycle.count_step {w : World} {c : Cycle}
    (h : c.wg = c.goroutines.countP (fun g => g != Goroutine.finished)) (j : Nat) :
    (c.step w j).wg = (c.step w j).goroutines.countP (fun g => g != Goroutine.finished) := by
  cases he : c.exit with
  | some e => rw [Cycle.step_of_exit he]; exact h
  | none =>
  cases hg : c.goroutines[j]? with
  | none => rw [Cycle.step_none he hg]; exact h
  | some g =>
  obtain ⟨hj, hgj⟩ := List.getElem?_eq_some.mp hg
  have h1 : g ≠ Goroutine.finished →
      0 < c.goroutines.countP (fun g => g != Goroutine.finished) := fun hne =>
    List.countP_pos_iff.mpr ⟨_, List.getElem_mem hj, by simp [hgj, hne]⟩
  cases g with
  | finished => rw [Cycle.step_finished he hg]; exact h
  | fetching addr =>
    cases hf : fetch w addr with
    | error err => rw [Cycle.step_fetch_error he hg hf]; exact h
    | ok P =>
      rw [Cycle.step_fetch_ok he hg hf]
      have := h1 (by simp)
      simp only [List.countP_set _ _ _ _ hj, hgj, h]
      simp
      omega
  | setting ws =>
    cases ws with
    | nil =>
      rw [Cycle.step_done he hg]
      simp only [List.countP_set _ _ _ _ hj, hgj, h]
      simp
    | cons kv rest =>
      obtain ⟨k, v⟩ := kv
      rw [Cycle.step_set he hg]
      have := h1 (by simp)
      simp only [List.countP_set _ _ _ _ hj, hgj, h]
      simp
      omega

theorem Cycle.step_of_all_finished {w : World} {c : Cycle}
    (h : ∀ g ∈ c.goroutines, g = Goroutine.finished) (j : Nat) : c.step w j = c := by
  cases he : c.exit with
  | some e => exact Cycle.step_of_exit he j
  | none =>
  cases hg : c.goroutines[j]? with
  | none => exact Cycle.step_none he hg
  | some g =>
    obtain ⟨hj, hgj⟩ := List.getElem?_eq_some.mp hg
    have := h _ (List.getElem_mem hj)
    rw [hgj] at this
    subst this
    exact Cycle.step_finished he hg

theorem Cycle.all_finished_of_count {c : Cycle}
    (h : c.wg = c.goroutines.countP (fun g => g != Goroutine.finished)) (hw : c.wg = 0) :
    ∀ g ∈ c.goroutines, g = Goroutine.finished := by
  have h0 : c.goroutines.countP (fun g => g != Goroutine.finished) = 0 := by
    rw [← h]; exact hw
  intro g hg
  have := List.countP_eq_zero.mp h0 g hg
  simpa using this

theorem run_nil (w : World) (addrs : List String) : run w addrs [] = RunState.init := rfl

theorem run_concat (w : World) (addrs : List String) (acts : List Action) (a : Action) :
    run w addrs (acts ++ [a]) = (run w addrs acts).step w addrs a := by
  simp [run]

theorem RunState.inv_init (addrs : List String) : RunState.Inv addrs RunState.init := by
  refine ⟨rfl, ?_, ?_, rfl, ?_, ?_, rfl, ?_, ?_, ?_, ?_, ?_, ?_, rfl⟩ <;>
    simp [RunState.init]

theorem RunState.inv_stepMain {addrs : List String} {s : RunState}
    (h : RunState.Inv addrs s) : RunState.Inv addrs (stepMain addrs s) := by
  obtain ⟨h1, h2, h3, h4, h5, h6, h7, h8, h9, h10, h11, h12, h13, h14⟩ := h
  unfold stepMain
  cases hm : s.main with
  | check =>
    simp only
    by_cases ha : addrs.length = 0
    · rw [if_pos ha]
      have ha' : addrs = [] := List.length_eq_zero.mp ha
      refine ⟨h1, h2, h3, h4, ?_, ?_, h7, ?_, ?_, ?_, h11, h12, h13, h14⟩ <;>
        simp_all
    · rw [if_neg ha]
      refine ⟨h1, h2, h3, h4, ?_, ?_, h7, ?_, ?_, ?_, h11, h12, h13, h14⟩ <;>
        simp_all
  | spawnListener =>
    simp only
    refine ⟨h1, h2, h3, h4, ?_, ?_, ?_, ?_, ?_, ?_, h11, h12, h13, h14⟩ <;> simp_all
  | spawnScheduler =>
    simp only
    refine ⟨h1, ?_, ?_, h4, ?_, ?_, ?_, ?_, ?_, ?_, ?_, ?_, ?_, h14⟩ <;> simp_all
  | wait =>
    simp only
    have hw : s.wg ≠ 0 := by
      have := (h10 hm).2
      rw [h7, if_neg this]
      omega
    rw [if_neg hw]
    exact ⟨h1, h2, h3, h4, h5, h6, h7, h8, h9, h10, h11, h12, h13, h14⟩
  | print => exact absurd hm h5
  | returned r =>
    simp only
    exact ⟨h1, h2, h3, h4, h5, h6, h7, h8, h9, h10, h11, h12, h13, h14⟩

theorem RunState.inv_stepListener {addrs : List String} {s : RunState}
    (h : RunState.Inv addrs s) : RunState.Inv addrs (stepListener s) := by
  obtain ⟨h1, h2, h3, h4, h5, h6, h7, h8, h9, h10, h11, h12, h13, h14⟩ := h
  unfold stepListener
  cases hl : s.listener with
  | started =>
    simp only
    refine ⟨h1, h2, h3, h4, h5, h6, ?_, ?_, ?_, ?_, h11, h12, h13, h14⟩ <;> simp_all
  | failed =>
    simp only
    refine ⟨h1, h2, h3, h4, h5, h6, ?_, ?_, ?_, ?_, h11, h12, h13, h14⟩ <;> simp_all
  | absent => exact ⟨h1, h2, h3, h4, h5, h6, h7, h8, h9, h10, h11, h12, h13, h14⟩
  | serving => exact ⟨h1, h2, h3, h4, h5, h6, h7, h8, h9, h10, h11, h12, h13, h14⟩
  | exited => exact ⟨h1, h2, h3, h4, h5, h6, h7, h8, h9, h10, h11, h12, h13, h14⟩

theorem RunState.inv_listenFail {addrs : List String} {s : RunState}
    (h : RunState.Inv addrs s) (hl : s.listener = ListenerPc.serving) :
    RunState.Inv addrs { s with listener := ListenerPc.failed } := by
  obtain ⟨h1, h2, h3, h4, h5, h6, h7, h8, h9, h10, h11, h12, h13, h14⟩ := h
  refine ⟨h1, h2, h3, h4, h5, h6, ?_, ?_, ?_, ?_, h11, h12, h13, h14⟩ <;> simp_all

theorem RunState.inv_tick {addrs : List String} {s : RunState}
    (h : RunState.Inv addrs s) (b : Bool) (ht : s.ticker = some b) :
    RunState.Inv addrs { s with ticker := some true } := by
  obtain ⟨h1, h2, h3, h4, h5, h6, h7, h8, h9, h10, h11, h12, h13, h14⟩ := h
  refine ⟨h1, h2, h3, h4, h5, h6, h7, h8, h9, h10, ?_, h12, h13, h14⟩
  intro hs
  have := (h11 hs).1
  rw [ht] at this
  cases this

theorem RunState.inv_worker {w : World} {addrs : List String} {s : RunState}
    (h : RunState.Inv addrs s) (i : Nat) :
    RunState.Inv addrs { s with cycle := s.cycle.step w i } := by
  obtain ⟨h1, h2, h3, h4, h5, h6, h7, h8, h9, h10, h11, h12, h13, h14⟩ := h
  by_cases hs : s.scheduler = SchedulerPc.inFetchStats
  · refine ⟨h1, h2, h3, h4, h5, h6, h7, h8, h9, h10, ?_, h12, ?_, Cycle.count_step h14 i⟩
    · intro ha; rw [hs] at ha; cases ha
    · intro hne; exact absurd hs hne
  · have hstep : s.cycle.step w i = s.cycle := Cycle.step_of_all_finished (h13 hs).2 i
    rw [hstep]
    exact ⟨h1, h2, h3, h4, h5, h6, h7, h8, h9, h10, h11, h12, h13, h14⟩

theorem Cycle.count_start (R : Registry) (addrs : List String) :
    (Cycle.start R addrs).wg
      = (Cycle.start R addrs).goroutines.countP (fun g => g != Goroutine.finished) := by
  simp only [Cycle.start]
  induction addrs with
  | nil => rfl
  | cons a t ih => simp [List.countP_cons, ← ih]

theorem RunState.inv_stepScheduler {addrs : List String} {s : RunState}
    (h : RunState.Inv addrs s) (stop : Bool) :
    RunState.Inv addrs (stepScheduler addrs stop s) := by
  have h' := h
  obtain ⟨h1, h2, h3, h4, h5, h6, h7, h8, h9, h10, h11, h12, h13, h14⟩ := h
  unfold stepScheduler
  cases hs : s.scheduler with
  | absent => exact h'
  | exited => exact h'
  | started =>
    simp only
    have hb := h13 (by rw [hs]; simp)
    clear h' h3 h13
    refine ⟨h1, ?_, ?_, h4, h5, h6, ?_, ?_, ?_, ?_, ?_, ?_, ?_, h14⟩
    · simp
    · intro e he; cases he
    · simp_all
    · simp_all
    · simp_all
    · simp_all
    · simp
    · simp
    · exact fun _ => hb
  | selecting =>
    simp only
    cases stop with
    | true =>
      simp only [if_true, h1]
      exact h'
    | false =>
      simp only [Bool.false_eq_true, if_false]
      by_cases ht : s.ticker = some true
      · rw [if_pos ht]
        have hb := h13 (by rw [hs]; simp)
        clear h' h3 h13
        refine ⟨h1, ?_, ?_, h4, h5, h6, ?_, ?_, ?_, ?_, ?_, ?_, ?_,
          Cycle.count_start s.cycle.registry addrs⟩
        · simp
        · intro e he; cases he
        · simp_all
        · simp_all
        · simp_all
        · simp_all
        · simp
        · intro _; simp [hb.1]
        · intro hne; exact absurd rfl hne
      · rw [if_neg ht]
        exact h'
  | inFetchStats =>
    simp only
    by_cases hw : s.cycle.wg = 0
    · rw [if_pos hw]
      have hfin := Cycle.all_finished_of_count h14 hw
      have hst := h12 hs
      clear h' h3 h13
      refine ⟨h1, ?_, ?_, h4, h5, h6, ?_, ?_, ?_, ?_, ?_, ?_, ?_, h14⟩
      · simp
      · intro e he; cases he; rfl
      · simp_all
      · simp_all
      · simp_all
      · simp_all
      · simp
      · simp
      · exact fun _ => ⟨hst, hfin⟩
    · rw [if_neg hw]
      exact h'
  | afterFetch e =>
    have he := h3 e hs
    subst he
    simp only
    have hb := h13 (by rw [hs]; simp)
    clear h' h3 h13
    refine ⟨h1, ?_, ?_, h4, h5, h6, ?_, ?_, ?_, ?_, ?_, ?_, ?_, h14⟩
    · simp
    · intro e he; cases he
    · simp_all
    · simp_all
    · simp_all
    · simp_all
    · simp
    · simp
    · exact fun _ => hb

theorem RunState.inv_preserved {w : World} {addrs : List String} {s : RunState}
    (h : RunState.Inv addrs s) (a : Action) : RunState.Inv addrs (s.step w addrs a) := by
  unfold RunState.step
  by_cases ht : s.terminated = true
  · rw [if_pos ht]; exact h
  · rw [if_neg ht]
    cases a with
    | main => exact RunState.inv_stepMain h
    | listener => exact RunState.inv_stepListener h
    | listenFail =>
      simp only
      cases hl : s.listener with
      | serving => exact RunState.inv_listenFail h hl
      | absent => exact h
      | started => exact h
      | failed => exact h
      | exited => exact h
    | scheduler stop => exact RunState.inv_stepScheduler h stop
    | tick =>
      simp only
      cases hk : s.ticker with
      | none => exact h
      | some b => exact RunState.inv_tick h b hk
    | worker i => exact RunState.inv_worker h i

/-- The invariant holds in every state `run` reaches. -/
theorem run_inv (w : World) (addrs : List String) (acts : List Action) :
    RunState.Inv addrs (run w addrs acts) := by
  induction acts using List.reverseRecOn with
  | nil => exact RunState.inv_init addrs
  | append_singleton acts a ih =>
    rw [run_concat]
    exact RunState.inv_preserved ih a

/-! ## C3: no sensor address -/

theorem run_no_addrs_state (w : World) (acts : List Action) :
    run w [] acts = RunState.init ∨
    run w [] acts = { RunState.init with main := .returned noAddrError } := by
  induction acts using List.reverseRecOn with
  | nil => exact Or.inl rfl
  | append_singleton acts a ih =>
    rw [run_concat]
    rcases ih with h | h <;> rw [h]
    · cases a with
      | main => exact Or.inr rfl
      | listener => exact Or.inl rfl
      | listenFail => exact Or.inl rfl
      | scheduler stop => exact Or.inl rfl
      | tick => exact Or.inl rfl
      | worker i => exact Or.inl rfl
    · exact Or.inr rfl

theorem run_no_addrs_main (w : World) (acts : List Action) (h : Action.main ∈ acts) :
    run w [] acts = { RunState.init with main := .returned noAddrError } := by
  induction acts using List.reverseRecOn with
  | nil => simp at h
  | append_singleton acts a ih =>
    rw [run_concat]
    by_cases hm : Action.main ∈ acts
    · rw [ih hm]; rfl
    · have ha : a = Action.main := by
        rcases List.mem_append.mp h with h | h
        · exact absurd h hm
        · exact (by simpa using h : Action.main = a).symm
      subst ha
      rcases run_no_addrs_state w acts with h | h <;> rw [h] <;> rfl

/-- C3. With an empty address list, in every state `run` reaches: the main
goroutine is at the address check or has returned the exit error with message
"At least one sensor address is required" and exit code -1 (non-zero), and it
has returned it once it has made a step; no listener goroutine and no
scheduler goroutine was started, no ticker was created, `fetchStats` was never
called, no fetch goroutine exists and the registry is untouched. -/
theorem run_no_addrs (w : World) (acts : List Action) :
    ((run w [] acts).main = MainPc.check ∨
      (run w [] acts).main = MainPc.returned
        (RunResult.exitError "At least one sensor address is required" (-1))) ∧
    (Action.main ∈ acts → (run w [] acts).main = MainPc.returned
        (RunResult.exitError "At least one sensor address is required" (-1))) ∧
    ((-1 : Int) ≠ 0) ∧
    (run w [] acts).listener = ListenerPc.absent ∧
    (run w [] acts).scheduler = SchedulerPc.absent ∧
    (run w [] acts).ticker = none ∧
    (run w [] acts).started = 0 ∧
    (run w [] acts).cycle.goroutines = [] ∧
    (run w [] acts).cycle.exit = none ∧
    (∀ k, (run w [] acts).cycle.registry k = none) := by
  refine ⟨?_, fun h => ?_, by decide, ?_⟩
  · rcases run_no_addrs_state w acts with h | h <;> rw [h]
    · exact Or.inl rfl
    · exact Or.inr rfl
  · rw [run_no_addrs_main w acts h]; rfl
  · rcases run_no_addrs_state w acts with h | h <;> rw [h] <;>
      exact ⟨rfl, rfl, rfl, rfl, rfl, rfl, fun _ => rfl⟩

/-- C3 at a concrete run: a tick, a step of the main goroutine and a step of
the scheduler; `run` has returned the exit error. -/
theorem run_no_addrs_witness :
    Action.main ∈ [Action.tick, Action.main, Action.scheduler false] ∧
    (run sampleWorld [] [Action.tick, Action.main, Action.scheduler false]).main
      = MainPc.returned (RunResult.exitError "At least one sensor address is required" (-1)) :=
  ⟨by decide, (run_no_addrs sampleWorld [Action.tick, Action.main, Action.scheduler false]).2.1
    (by decide)⟩

/-! ## C6: cycles do not overlap -/

theorem RunState.started_step {w : World} {addrs : List String} {s : RunState} {a : Action}
    (h : (s.step w addrs a).started = s.started + 1) : s.scheduler = SchedulerPc.selecting := by
  unfold RunState.step at h
  by_cases ht : s.terminated = true
  · rw [if_pos ht] at h; omega
  · rw [if_neg ht] at h
    cases a with
    | main =>
      simp only [stepMain] at h
      split at h
      · split at h <;> simp at h
      · simp at h
      · simp at h
      · split at h <;> simp at h
      · simp at h
      · simp at h
    | listener =>
      simp only [stepListener] at h
      split at h <;> simp at h
    | listenFail =>
      simp only at h
      split at h <;> simp at h
    | tick =>
      simp only at h
      split at h <;> simp at h
    | worker i => simp at h
    | scheduler stop =>
      simp only [stepScheduler] at h
      split at h
      · simp at h
      · assumption
      · split at h <;> simp at h
      · simp at h
      · simp at h
      · simp at h

/-- C6. In every state `run` reaches, for every network, address list and
sequence of events (ticks may arrive at any time, also while a cycle runs):
the calls of `fetchStats` exceed the returns from it by at most one, and by
one exactly while the scheduler is inside the call; outside the call every
fetch goroutine has finished; and a step that starts a new cycle is taken only
in a state in which every earlier call has returned and every fetch goroutine
has finished. -/
theorem run_cycles_sequential (w : World) (addrs : List String) (acts : List Action) :
    ((run w addrs acts).started = (run w addrs acts).finished ∨
      (run w addrs acts).started = (run w addrs acts).finished + 1) ∧
    ((run w addrs acts).started = (run w addrs acts).finished + 1 ↔
      (run w addrs acts).scheduler = SchedulerPc.inFetchStats) ∧
    ((run w addrs acts).scheduler ≠ SchedulerPc.inFetchStats →
      ∀ g ∈ (run w addrs acts).cycle.goroutines, g = Goroutine.finished) ∧
    (∀ a, ((run w addrs acts).step w addrs a).started = (run w addrs acts).started + 1 →
      (run w addrs acts).started = (run w addrs acts).finished ∧
      ∀ g ∈ (run w addrs acts).cycle.goroutines, g = Goroutine.finished) := by
  have h := run_inv w addrs acts
  by_cases hs : (run w addrs acts).scheduler = SchedulerPc.inFetchStats
  · refine ⟨Or.inr (h.inFlight hs), ⟨fun _ => hs, fun _ => h.inFlight hs⟩,
      fun hne => absurd hs hne, fun a ha => ?_⟩
    have := RunState.started_step ha
    rw [hs] at this
    cases this
  · have hb := h.between hs
    refine ⟨Or.inl hb.1, ⟨fun he => ?_, fun he => absurd he hs⟩, fun _ => hb.2, fun _ _ => hb⟩
    omega

/-- C6 at a concrete run: after the run of `listenerFailsTrace` one cycle was
started and has returned, and every fetch goroutine has finished. -/
theorem run_cycles_sequential_witness :
    (run sampleWorld ["10.0.0.5:80"] listenerFailsTrace).scheduler ≠ SchedulerPc.inFetchStats ∧
    (run sampleWorld ["10.0.0.5:80"] listenerFailsTrace).started = 1 ∧
    ∀ g ∈ (run sampleWorld ["10.0.0.5:80"] listenerFailsTrace).cycle.goroutines,
      g = Goroutine.finished :=
  ⟨by decide, by rfl,
    (run_cycles_sequential sampleWorld ["10.0.0.5:80"] listenerFailsTrace).2.2.1 (by decide)⟩

/-! ## C10: the scheduler cannot be stopped -/

/-- C10. In every state `run` reaches, for every network, address list and
sequence of events, whatever the listener does: the context is not cancelled;
the scheduler has not ended through the `ctx.Done()` case, and at the `select`
the attempt to take that case changes nothing; the main goroutine is never
past `wg.Wait()`, so "Shutting down" is never printed and `run` never returns
`nil`. -/
theorem run_never_stops (w : World) (addrs : List String) (acts : List Action) :
    (run w addrs acts).ctxDone = false ∧
    (run w addrs acts).scheduler ≠ SchedulerPc.exited ∧
    ((run w addrs acts).scheduler = SchedulerPc.selecting →
      (run w addrs acts).step w addrs (Action.scheduler true) = run w addrs acts) ∧
    (run w addrs acts).main ≠ MainPc.print ∧
    (run w addrs acts).main ≠ MainPc.returned RunResult.nil ∧
    "Shutting down" ∉ (run w addrs acts).stdout := by
  have h := run_inv w addrs acts
  refine ⟨h.ctx, h.sched, fun hs => ?_, h.noPrint, fun hm => ?_, ?_⟩
  · unfold RunState.step
    by_cases ht : (run w addrs acts).terminated = true
    · rw [if_pos ht]
    · rw [if_neg ht]
      simp only [stepScheduler, hs, h.ctx, if_true]
      rfl
  · have := (h.ret _ hm).2
    cases this
  · rw [h.out]; simp

/-! ## C8: a listener that fails -/

/-- C8 as stated fails: on the run `listenerFailsTrace` the listener has
failed and its goroutine has ended, yet `run` has not returned (the main
goroutine waits in `wg.Wait()`), the process was not terminated, and after the
failure a scrape cycle was started, has returned, and has written
temp_f{abc123} = 72.5. -/
theorem listener_failure_not_fatal :
    (run sampleWorld ["10.0.0.5:80"] (listenerFailsTrace.take 6)).listener
      = ListenerPc.exited ∧
    (run sampleWorld ["10.0.0.5:80"] (listenerFailsTrace.take 6)).started = 0 ∧
    (run sampleWorld ["10.0.0.5:80"] listenerFailsTrace).listener = ListenerPc.exited ∧
    (run sampleWorld ["10.0.0.5:80"] listenerFailsTrace).main = MainPc.wait ∧
    (run sampleWorld ["10.0.0.5:80"] listenerFailsTrace).cycle.exit = none ∧
    (run sampleWorld ["10.0.0.5:80"] listenerFailsTrace).started = 1 ∧
    (run sampleWorld ["10.0.0.5:80"] listenerFailsTrace).finished = 1 ∧
    (run sampleWorld ["10.0.0.5:80"] listenerFailsTrace).cycle.registry
      ⟨"temp_f", ["abc123"]⟩ = some 0x4052200000000000 :=
  ⟨by rfl, by rfl, by rfl, by rfl, by rfl, by rfl, by rfl, by rfl⟩

/-- C8 (amended). A failure of the listener is not fatal: the error that
`http.ListenAndServe` returns is discarded.  In every state `run` reaches in
which the listener has failed, `run` has not returned, neither an error nor
`nil`, the scheduler has not ended, and if the process is alive, the scheduler
is at its `select` and a tick is there, its next step starts a scrape
cycle. -/
theorem run_listener_failure (w : World) (addrs : List String) (acts : List Action)
    (h : (run w addrs acts).listener = ListenerPc.failed ∨
      (run w addrs acts).listener = ListenerPc.exited) :
    (∀ r, (run w addrs acts).main ≠ MainPc.returned r) ∧
    (run w addrs acts).scheduler ≠ SchedulerPc.exited ∧
    ((run w addrs acts).cycle.exit = none →
      (run w addrs acts).scheduler = SchedulerPc.selecting →
      (run w addrs acts).ticker = some true →
      ((run w addrs acts).step w addrs (Action.scheduler false)).started
        = (run w addrs acts).started + 1 ∧
      ((run w addrs acts).step w addrs (Action.scheduler false)).scheduler
        = SchedulerPc.inFetchStats) := by
  have hinv := run_inv w addrs acts
  have hret : ∀ r, (run w addrs acts).main ≠ MainPc.returned r := by
    intro r hr
    have := (hinv.early (Or.inr (Or.inr ⟨r, hr⟩))).1
    rw [this] at h
    rcases h with h | h <;> cases h
  refine ⟨hret, hinv.sched, fun he hs ht => ?_⟩
  have hterm : (run w addrs acts).terminated = false := by
    unfold RunState.terminated
    rw [he]
    cases hm : (run w addrs acts).main with
    | returned r => exact absurd hm (hret r)
    | _ => rfl
  unfold RunState.step
  rw [hterm]
  simp [stepScheduler, hs, ht]

/-- C8 (amended) at a concrete run: after the first six events of
`listenerFailsTrace` followed by the scheduler's start and a tick, the listener
has failed and ended, `run` has not returned, and the next step of the
scheduler starts the first scrape cycle. -/
theorem run_listener_failure_witness :
    (run sampleWorld ["10.0.0.5:80"] (listenerFailsTrace.take 9)).listener
      = ListenerPc.exited ∧
    (run sampleWorld ["10.0.0.5:80"] (listenerFailsTrace.take 9)).main ≠ MainPc.returned noAddrError ∧
    ((run sampleWorld ["10.0.0.5:80"] (listenerFailsTrace.take 9)).step sampleWorld
      ["10.0.0.5:80"] (Action.scheduler false)).started = 1 :=
  ⟨by rfl,
   (run_listener_failure sampleWorld ["10.0.0.5:80"] (listenerFailsTrace.take 9)
      (Or.inr (by rfl))).1 noAddrError,
   ((run_listener_failure sampleWorld ["10.0.0.5:80"] (listenerFailsTrace.take 9)
      (Or.inr (by rfl))).2.2 (by rfl) (by rfl) (by rfl)).1⟩

end PurpleExporter
